import Mathlib

/-!
Verification of the analytics pipeline (file discovery, table loading/cleaning,
column resolution, domain analyzers) of the amazon-analytics-suite repository.

The Python source (src/data_loader.py, src/analyzer.py, src/config.py) is
shallowly embedded below.  Machine floats are modelled exactly: cell values are
rationals, the NaN produced by pandas coercion is modelled as `Option.none` (or
the `Cell.null` constructor), and the float special values produced by division
are modelled by the `PVal` type.  The pandas library functions used by the code
(`pd.to_numeric` and `pd.to_datetime` with coercing error handling,
`groupby` with `sum` aggregation, `Series.sum` with NaN skipping) are modelled
where noted in doc comments.
-/

namespace AAS

/-! ## Character model

Python string operations (`str.lower`, and the regex classes `\w` and `\s`)
restricted to the character repertoire that actually appears in CSV headers.
`lowerCh` mirrors `str.lower`, `isWordCh` the regex class `\w`, `isSpaceCh`
the regex class `\s`. -/

/-- Model of Python `str.lower` on one character (ASCII letters). -/
def lowerCh (c : Char) : Char :=
  if 65 ≤ c.toNat && c.toNat ≤ 90 then Char.ofNat (c.toNat + 32) else c

/-- Model of the regex character class `\w`: letters, digits, underscore. -/
def isWordCh (c : Char) : Bool :=
  (97 ≤ c.toNat && c.toNat ≤ 122) || (65 ≤ c.toNat && c.toNat ≤ 90) ||
    (48 ≤ c.toNat && c.toNat ≤ 57) || c.toNat = 95

/-- Model of the regex character class `\s` (also Python `str.strip` default). -/
def isSpaceCh (c : Char) : Bool :=
  c.toNat = 32 || c.toNat = 9 || c.toNat = 10 || c.toNat = 13 ||
    c.toNat = 11 || c.toNat = 12

/-- Model of Python `str.lower` on a whole string. -/
def pyLower (s : String) : String := ⟨s.data.map lowerCh⟩

/-- Boolean test that the list `p` occurs at the head of `l`. -/
def headMatch : List Char → List Char → Bool
  | [], _ => true
  | _ :: _, [] => false
  | a :: as, b :: bs => a == b && headMatch as bs

/-- Boolean test that the list `p` occurs contiguously somewhere in `l`
(Python `p in l` on strings). -/
def subMatch (p : List Char) : List Char → Bool
  | [] => headMatch p []
  | b :: bs => headMatch p (b :: bs) || subMatch p bs

/-- Model of the Python substring test `pat in s`. -/
def strHas (s pat : String) : Bool := subMatch pat.data s.data

/-- Python `any(pattern in s for pattern in pats)`. -/
def anyPat (pats : List String) (s : String) : Bool := pats.any (fun p => strHas s p)

/-! ## Cells and tables

A pandas DataFrame as the code uses one: ordered named columns of cells.
Floats are modelled exactly by rationals; the NaN/NaT missing value is the
`Cell.null` constructor. -/

/-- One cell of a loaded table.  `num` is a cell pandas parses as a number,
`date` a cell pandas parses as a calendar date, `str` any other text, and
`null` a missing value (pandas NaN/NaT). -/
inductive Cell where
  | num (q : ℚ)
  | date (y m d : ℕ)
  | str (s : String)
  | null
  deriving DecidableEq, Repr

/-- Model of `pd.to_numeric` with coercing error handling on one cell: numeric
cells keep their value, every unparseable cell coerces to NaN (`none`). -/
def Cell.toNumeric : Cell → Option ℚ
  | .num q => some q
  | _ => none

/-- Model of `pd.to_datetime` with coercing error handling on one cell: date
cells inside the pandas timestamp range parse, everything else coerces to NaT
(`none`).  Numeric cells, which pandas would read as epoch offsets, do not
occur in the date columns of the tables the claims quantify over. -/
def Cell.asDate : Cell → Option (ℕ × ℕ × ℕ)
  | .date y m d =>
      if 1678 ≤ y && y ≤ 2261 && 1 ≤ m && m ≤ 12 && 1 ≤ d && d ≤ 31 then
        some (y, m, d)
      else none
  | _ => none

/-- The (year, month) pair of a date-parsed cell, `none` for NaT. -/
def Cell.toMonth (c : Cell) : Option (ℕ × ℕ) :=
  match c.asDate with
  | some (y, m, _) => some (y, m)
  | none => none

/-- Left-pad the decimal representation of `n` with zeros to `width` digits. -/
def padNat (width n : ℕ) : String :=
  let s := toString n
  ⟨List.replicate (width - s.length) '0' ++ s.data⟩

/-- Model of `strftime` with the format `%Y-%m`: the `YYYY-MM` month label. -/
def monthLabel (y m : ℕ) : String := padNat 4 y ++ "-" ++ padNat 2 m

/-- A loaded table: ordered columns, each a name paired with its cells. -/
structure Table where
  cols : List (String × List Cell)
  deriving DecidableEq, Repr

/-- The ordered list of column names (`df.columns`). -/
def Table.colNames (t : Table) : List String := t.cols.map Prod.fst

/-- Model of `df[name]`: the cells of the first column called `name`. -/
def Table.getCol (t : Table) (name : String) : List Cell :=
  match t.cols.find? (fun c => c.1 == name) with
  | some c => c.2
  | none => []

/-- Membership test `name in df.columns`. -/
def Table.hasCol (t : Table) (name : String) : Bool :=
  t.cols.any (fun c => c.1 == name)

/-- Model of the DataFrame column assignment `df[name] = cells`: overwrites
the column in place when the name already exists, appends a new column at the
end otherwise. -/
def Table.setCol (t : Table) (name : String) (cells : List Cell) : Table :=
  if t.hasCol name then
    ⟨t.cols.map (fun c => if c.1 == name then (name, cells) else c)⟩
  else ⟨t.cols ++ [(name, cells)]⟩

/-- Model of `len(df)`: the row count (length of the first column). -/
def Table.nrows (t : Table) : ℕ :=
  match t.cols with
  | [] => 0
  | c :: _ => c.2.length

/-- Replace the cell at row `i` of every column called `name`, leaving all
other columns untouched; an out-of-range index leaves the table unchanged.
Used to state the alert-monotonicity claim. -/
def Table.setCell (t : Table) (name : String) (i : ℕ) (v : Cell) : Table :=
  ⟨t.cols.map (fun c => if c.1 == name then (c.1, c.2.set i v) else c)⟩

/-- Model of pandas `Series.sum`: sums the non-null values; an all-null or
empty series sums to `0`. -/
def optSum (l : List (Option ℚ)) : ℚ := (l.filterMap id).sum

/-- Model of pandas `Series.mean`: the mean of the non-null values, NaN
(`none`) when there are none. -/
def optMean (l : List (Option ℚ)) : Option ℚ :=
  let v := l.filterMap id
  if v.length = 0 then none else some (v.sum / v.length)

/-- Model of a pandas elementwise comparison `x < q`: NaN compares false. -/
def optLt (v : Option ℚ) (q : ℚ) : Bool :=
  match v with
  | some x => x < q
  | none => false

/-- Model of a pandas elementwise comparison `x > q`: NaN compares false. -/
def optGt (v : Option ℚ) (q : ℚ) : Bool :=
  match v with
  | some x => q < x
  | none => false

/-- Business thresholds from `Config.THRESHOLDS` in src/config.py. -/
structure Config where
  low_stock_days : ℚ
  overstock_days : ℚ
  high_acos : ℚ
  low_rating : ℚ
  deriving Repr

/-- The configuration values shipped in src/config.py. -/
def defaultConfig : Config := ⟨7, 30, 40, 3⟩

/-- An alert record as appended to `self.alerts` by the analyzers. -/
structure Alert where
  type : String
  level : String
  title : String
  message : String
  deriving DecidableEq, Repr

/-! ## Column-name normalization (`DataLoader._standardize_column_name`) -/

/-- Python `str.strip`: drop leading and trailing whitespace. -/
def stripL (l : List Char) : List Char :=
  ((l.dropWhile isSpaceCh).reverse.dropWhile isSpaceCh).reverse

/-- The first regex substitution of `_standardize_column_name`: every
character that is neither a word character nor whitespace becomes an
underscore. -/
def replaceSpecial (l : List Char) : List Char :=
  l.map (fun c => if !isWordCh c && !isSpaceCh c then '_' else c)

/-- Replace every maximal run of characters satisfying `p` by the single
character `r` (a regex substitution whose pattern is a character class with a
plus quantifier). -/
def collapseRuns (p : Char → Bool) (r : Char) (l : List Char) : List Char :=
  match l with
  | [] => []
  | c :: cs =>
      if p c then r :: collapseRuns p r (cs.dropWhile p)
      else c :: collapseRuns p r cs
termination_by l.length
decreasing_by
  · exact Nat.lt_succ_of_le (List.dropWhile_sublist p).length_le
  · exact Nat.lt_succ_self _

/-- List-level body of `_standardize_column_name`: lowercase, strip, replace
special characters, collapse whitespace runs to `_`, collapse underscore
runs. -/
def standardizeL (l : List Char) : List Char :=
  collapseRuns (fun c => c == '_') '_'
    (collapseRuns isSpaceCh '_' (replaceSpecial (stripL (l.map lowerCh))))

/-- Model of `DataLoader._standardize_column_name`. -/
def standardizeColumnName (s : String) : String := ⟨standardizeL s.data⟩

/-! ## File classification (`DataLoader.discover_files`) -/

/-- The five file buckets of `DataLoader.discover_files`. -/
inductive FileBucket where
  | sales
  | inventory
  | advertising
  | reviews
  | other
  deriving DecidableEq, Repr

/-- Filename patterns of the sales bucket. -/
def salesFilePats : List String := ["sales", "transaction", "order"]

/-- Filename patterns of the inventory bucket. -/
def inventoryFilePats : List String := ["inventory", "stock"]

/-- Filename patterns of the advertising bucket. -/
def advertisingFilePats : List String := ["ad", "spend", "campaign"]

/-- Filename patterns of the reviews bucket. -/
def reviewsFilePats : List String := ["review", "rating"]

/-- Model of the classification chain in `DataLoader.discover_files` (lines
42-54): the lowercased filename is tested against the four domain pattern
sets in order, the first match wins, otherwise the file goes to `other`. -/
def classifyFile (filename : String) : FileBucket :=
  let f := pyLower filename
  if anyPat salesFilePats f then .sales
  else if anyPat inventoryFilePats f then .inventory
  else if anyPat advertisingFilePats f then .advertising
  else if anyPat reviewsFilePats f then .reviews
  else .other

/-! ## Table cleaning (`DataLoader._clean_sales_data`, `_clean_inventory_data`) -/

/-- Numeric column-name substrings for sales tables (data_loader.py line 219). -/
def salesNumericPats : List String :=
  ["quantity", "price", "total", "amount", "qty", "cost", "revenue"]

/-- Numeric column-name substrings for inventory tables (line 235). -/
def inventoryNumericPats : List String :=
  ["stock", "quantity", "qty", "days", "supply", "inbound"]

/-- Date column-name substrings of `DataLoader._find_date_column`. -/
def dateColPats : List String := ["date", "time", "order_date", "transaction_date"]

/-- Model of `DataLoader._find_date_column`: the first column whose lowercased
name contains one of the date substrings. -/
def findDateColumn (columns : List String) : Option String :=
  columns.find? (fun col => anyPat dateColPats (pyLower col))

/-- Sales-table numeric coercion of one cell (`pd.to_numeric`, coercing):
unparseable cells become NaN.  Total by construction — coercion never
raises. -/
def salesCoerceCell (c : Cell) : Cell :=
  match c.toNumeric with
  | some q => .num q
  | none => .null

/-- Inventory-table numeric coercion of one cell (`pd.to_numeric`, coercing,
then `fillna(0)`): unparseable cells become `0`.  Total by construction —
coercion never raises. -/
def invCoerceCell (c : Cell) : Cell := .num ((c.toNumeric).getD 0)

/-- Date parse of one cell of the date column (`pd.to_datetime`, coercing). -/
def dateCoerceCell (c : Cell) : Cell :=
  match c.asDate with
  | some (y, m, d) => .date y m d
  | none => .null

/-- The date-conversion pass of `_clean_sales_data`: the resolved date
column's cells are parsed to datetimes, all other columns are untouched. -/
def dateConvertCols (dcol : Option String) (cols : List (String × List Cell)) :
    List (String × List Cell) :=
  match dcol with
  | some dc => cols.map (fun c => if c.1 == dc then (c.1, c.2.map dateCoerceCell) else c)
  | none => cols

/-- The numeric-coercion pass of `_clean_sales_data`: every column whose name
matches a sales numeric pattern is coerced cellwise, except the converted
date column — in the source `pd.to_numeric` raises on the freshly converted
datetime column and the surrounding `try` swallows the error, leaving that
column as datetimes. -/
def salesCoerceCols (dcol : Option String) (cols : List (String × List Cell)) :
    List (String × List Cell) :=
  cols.map (fun c =>
    if anyPat salesNumericPats (pyLower c.1) && !(dcol == some c.1) then
      (c.1, c.2.map salesCoerceCell)
    else c)

/-- Model of `DataLoader._clean_sales_data`: parse the resolved date column
to datetimes, then numerically coerce the columns matching a sales numeric
pattern. -/
def cleanSalesData (t : Table) : Table :=
  ⟨salesCoerceCols (findDateColumn t.colNames)
    (dateConvertCols (findDateColumn t.colNames) t.cols)⟩

/-- Model of `DataLoader._clean_inventory_data`: numerically coerce, with
fill-to-zero, every column whose name matches an inventory numeric pattern. -/
def cleanInventoryData (t : Table) : Table :=
  ⟨t.cols.map (fun c =>
      if anyPat inventoryNumericPats (pyLower c.1) then (c.1, c.2.map invCoerceCell)
      else c)⟩

/-! ## Sales analyzer (`DataAnalyzer._analyze_sales`, analyzer.py lines 46-150) -/

/-- Revenue-role substrings (analyzer.py line 54). -/
def revenueKeys : List String := ["total", "revenue", "amount", "price"]

/-- The per-name test of the revenue-column loop: the lowercased name contains
one of the revenue keys and does not contain "unit". -/
def revQualifies (col : String) : Bool :=
  anyPat revenueKeys (pyLower col) && !(strHas (pyLower col) "unit")

/-- Model of the revenue-column loop (lines 51-57): first qualifying name. -/
def findRevenueCol (columns : List String) : Option String :=
  columns.find? revQualifies

/-- Model of the quantity-column loop (lines 60-65). -/
def findQuantityCol (columns : List String) : Option String :=
  columns.find? (fun col => anyPat ["quantity", "qty"] (pyLower col))

/-- Model of the analyzer's date-column loop (lines 76-80): first name
containing "date". -/
def findAnalyzerDateCol (columns : List String) : Option String :=
  columns.find? (fun col => strHas (pyLower col) "date")

/-- Strict month order: on the `YYYY-MM` labels the code groups by, the
lexicographic string order that pandas `groupby` sorts keys with agrees with
this pairwise order, because inside the pandas timestamp range the year label
is a fixed four digits. -/
def monthLt (a b : ℕ × ℕ) : Bool := a.1 < b.1 || (a.1 == b.1 && a.2 < b.2)

/-- Insertion into an ascending month list. -/
def insertMonth (x : ℕ × ℕ) : List (ℕ × ℕ) → List (ℕ × ℕ)
  | [] => [x]
  | y :: ys => if monthLt x y then x :: y :: ys else y :: insertMonth x ys

/-- Insertion sort of month keys. -/
def sortMonths (l : List (ℕ × ℕ)) : List (ℕ × ℕ) := l.foldr insertMonth []

/-- The distinct month keys of the date cells in ascending order: pandas
`groupby` drops NaT rows and sorts the group keys. -/
def monthKeys (dateCells : List Cell) : List (ℕ × ℕ) :=
  sortMonths (dateCells.filterMap Cell.toMonth).dedup

/-- Revenue sum of one month group (`groupby` then `sum`): the revenue cells
of the rows whose date cell falls in that month, summed with NaN skipping. -/
def monthRevenue (dateCells revCells : List Cell) (ym : ℕ × ℕ) : ℚ :=
  optSum
    (((dateCells.zip revCells).filter (fun rc => rc.1.toMonth == some ym)).map
      (fun rc => rc.2.toNumeric))

/-- The `monthly_trends` table: months ascending, each with its revenue
total. -/
def monthlyTotals (dateCells revCells : List Cell) : List ((ℕ × ℕ) × ℚ) :=
  (monthKeys dateCells).map (fun ym => (ym, monthRevenue dateCells revCells ym))

/-- The `monthly_growth` computation (lines 102-108): defined only when more
than one month group exists and the previous month total is strictly
positive. -/
def growthOf (m : List ((ℕ × ℕ) × ℚ)) : Option ℚ :=
  if 1 < m.length then
    match m[m.length - 1]?, m[m.length - 2]? with
    | some lastE, some prevE =>
        if 0 < prevE.2 then some ((lastE.2 - prevE.2) / prevE.2 * 100) else none
    | _, _ => none
  else none

/-- The last month's revenue total of a trends table (`iloc[-1]`), `0` when
absent. -/
def lastTotal (m : List ((ℕ × ℕ) × ℚ)) : ℚ := ((m[m.length - 1]?).map Prod.snd).getD 0

/-- The previous month's revenue total of a trends table (`iloc[-2]`), `0`
when absent. -/
def prevTotal (m : List ((ℕ × ℕ) × ℚ)) : ℚ := ((m[m.length - 2]?).map Prod.snd).getD 0

/-- The sales metrics record (`sales_metrics`), restricted to the fields the
claims are about; `none` models the absence of a dictionary key (for
`avg_order_value` it models the NaN mean of an empty column). -/
structure SalesMetrics where
  total_transactions : ℕ
  total_quantity : ℚ
  total_revenue : ℚ
  avg_order_value : Option ℚ
  monthly_trends : Option (List ((ℕ × ℕ) × ℚ))
  monthly_growth : Option ℚ
  deriving DecidableEq, Repr

/-- The sales decline alert (lines 144-150): `get` with default `0` means it
fires only when the growth key is present and below `-10`.  The numeric
interpolation of the Python message is elided (no claim concerns it). -/
def salesAlerts (growth : Option ℚ) : List Alert :=
  if optLt growth (-10) then
    [⟨"sales", "warning", "Sales Decline", "Monthly sales declined"⟩]
  else []

/-- Model of `DataAnalyzer._analyze_sales`: returns the metrics record, the
mutated table — the code adds the helper columns `_date` and `_month_str` to
its argument in place whenever a date column is found — and the appended
alerts.  The `groupby` over the `_month_str` column is expressed directly
over the date cells via `monthlyTotals`; the `YYYY-MM` labels are injective
on the pandas timestamp range, so grouping by label and grouping by (year,
month) agree.  (The wall-clock recent-30-day metrics and the product
aggregation are not modelled; no claim concerns them.) -/
def analyzeSales (t : Table) : SalesMetrics × Table × List Alert :=
  let revenue_col := findRevenueCol t.colNames
  let quantity_col := findQuantityCol t.colNames
  let date_col := findAnalyzerDateCol t.colNames
  let total_transactions := t.nrows
  let total_quantity : ℚ :=
    match quantity_col with
    | some qc => optSum ((t.getCol qc).map Cell.toNumeric)
    | none => 0
  let total_revenue : ℚ :=
    match revenue_col with
    | some rc => optSum ((t.getCol rc).map Cell.toNumeric)
    | none => 0
  let avg_order_value : Option ℚ :=
    match revenue_col with
    | some rc => optMean ((t.getCol rc).map Cell.toNumeric)
    | none => some 0
  match date_col with
  | some dc =>
      let dcells := t.getCol dc
      let t1 := t.setCol "_date" (dcells.map dateCoerceCell)
      let t2 := t1.setCol "_month_str" (dcells.map (fun c =>
          match c.toMonth with
          | some (y, m) => .str (monthLabel y m)
          | none => .null))
      let tg : Option (List ((ℕ × ℕ) × ℚ)) × Option ℚ :=
        match revenue_col with
        | some rc =>
            let m := monthlyTotals dcells (t.getCol rc)
            (some m, growthOf m)
        | none => (none, none)
      (⟨total_transactions, total_quantity, total_revenue, avg_order_value,
          tg.1, tg.2⟩, t2, salesAlerts tg.2)
  | none =>
      (⟨total_transactions, total_quantity, total_revenue, avg_order_value,
          none, none⟩, t, salesAlerts none)

/-! ## Inventory analyzer (`DataAnalyzer._analyze_inventory`, lines 152-220) -/

/-- The inventory metrics record restricted to the claim-relevant fields;
`none` models the absence of the dictionary key. -/
structure InvMetrics where
  total_products : ℕ
  total_stock : Option ℚ
  low_stock_count : Option ℕ
  overstock_count : Option ℕ
  deriving DecidableEq, Repr

/-- The stock-column loop (lines 161-166): lowercased name contains "stock"
and also "current" or "available". -/
def findStockCol (columns : List String) : Option String :=
  columns.find? (fun col =>
    strHas (pyLower col) "stock" &&
      (strHas (pyLower col) "current" || strHas (pyLower col) "available"))

/-- The days-supply-column loop (lines 169-174): lowercased name contains
"days". -/
def findDaysCol (columns : List String) : Option String :=
  columns.find? (fun col => strHas (pyLower col) "days")

/-- Decimal rendering of an integral threshold for an alert message. -/
def ratStr (q : ℚ) : String := toString q.num

/-- Model of `DataAnalyzer._analyze_inventory`.  Returns the metrics record,
the caller's table (the function assigns no DataFrame column, so the table
comes back unchanged) and the appended alerts.  The whole days-supply
analysis, alerts included, is nested inside
`if stock_col and stock_col in inventory_df.columns`, so without a resolved
stock column no inventory alert is ever appended. -/
def analyzeInventory (cfg : Config) (t : Table) : InvMetrics × Table × List Alert :=
  let stock_col := findStockCol t.colNames
  let days_col := findDaysCol t.colNames
  match stock_col with
  | none => (⟨t.nrows, none, none, none⟩, t, [])
  | some sc =>
      let total_stock := optSum ((t.getCol sc).map Cell.toNumeric)
      match days_col with
      | none => (⟨t.nrows, some total_stock, none, none⟩, t, [])
      | some dc =>
          let ds := (t.getCol dc).map Cell.toNumeric
          let lowCount := ds.countP (fun v => optLt v cfg.low_stock_days)
          let overCount := ds.countP (fun v => optGt v cfg.overstock_days)
          let critCount := ds.countP (fun v => optLt v 3)
          let alerts :=
            (if 0 < lowCount then
               (if 0 < critCount then
                  [⟨"inventory", "critical", "Critical Stock Shortage",
                     toString critCount ++ " products have less than 3 days of stock"⟩]
                else []) ++
                 [⟨"inventory", "warning", "Low Stock Alert",
                    toString lowCount ++ " products have less than " ++
                      ratStr cfg.low_stock_days ++ " days of stock"⟩]
             else []) ++
              (if 0 < overCount then
                 [⟨"inventory", "info", "Overstock Detected",
                    toString overCount ++ " products have more than " ++
                      ratStr cfg.overstock_days ++ " days of stock"⟩]
               else [])
          (⟨t.nrows, some total_stock, some lowCount, some overCount⟩, t, alerts)

/-! ## Advertising analyzer (`DataAnalyzer._analyze_advertising`, lines 222-306) -/

/-- Values of the campaign return computation: a finite float (exact
rational), or one of the special values IEEE division can produce. -/
inductive PVal where
  | fin (q : ℚ)
  | pinf
  | ninf
  | nan
  deriving DecidableEq, Repr

/-- Pandas elementwise division of two finite values: division of a nonzero
value by zero yields a signed infinity, zero by zero yields NaN. -/
def pdDiv (a b : ℚ) : PVal :=
  if b = 0 then (if a = 0 then .nan else if 0 < a then .pinf else .ninf)
  else .fin (a / b)

/-- The `replace` step mapping both infinities to `0`. -/
def replaceInf : PVal → PVal
  | .pinf => .fin 0
  | .ninf => .fin 0
  | v => v

/-- The `fillna(0)` step. -/
def fillNaN : PVal → PVal
  | .nan => .fin 0
  | v => v

/-- Floor of a rational as an integer (the denominator is positive, so
integer floor division of numerator by denominator is the floor). -/
def qfloor (q : ℚ) : ℤ := q.num.fdiv q.den

/-- The `round(2)` step on a finite value, as round-half-up on the second
decimal; the exact rounding mode (pandas rounds half to even) is immaterial
to the stated claims, which only use that rounding is finiteness- and
zero-preserving. -/
def round2 : PVal → PVal
  | .fin q => .fin ((qfloor (q * 100 + 1 / 2) : ℚ) / 100)
  | v => v

/-- Comparison of a possibly special value with a finite threshold, NaN
comparing false (used by the high-ACOS flag). -/
def pvalLt (v : PVal) (q : ℚ) : Bool :=
  match v with
  | .fin x => x < q
  | .pinf => false
  | .ninf => true
  | .nan => false

/-- The spend-column loop (lines 229-233). -/
def findSpendCol (columns : List String) : Option String :=
  columns.find? (fun col => strHas (pyLower col) "spend")

/-- The clicks-column loop (lines 236-240). -/
def findClicksCol (columns : List String) : Option String :=
  columns.find? (fun col => strHas (pyLower col) "clicks")

/-- The impressions-column loop (lines 243-247). -/
def findImpressionsCol (columns : List String) : Option String :=
  columns.find? (fun col => strHas (pyLower col) "impressions")

/-- The campaign keys: distinct non-null values of the `campaign_name`
column; pandas `groupby` drops NaN keys.  (`groupby` presents groups in
sorted key order; every stated claim is order-insensitive, so
first-occurrence order is used.) -/
def campaignKeys (t : Table) : List Cell :=
  ((t.getCol "campaign_name").filter (fun c => !(c == Cell.null))).dedup

/-- Group sum of column `col` over the rows whose campaign cell equals `k`
(`groupby` then `sum`, NaN-skipping). -/
def campaignSum (t : Table) (col : String) (k : Cell) : ℚ :=
  optSum
    ((((t.getCol "campaign_name").zip (t.getCol col)).filter (fun rc => rc.1 == k)).map
      (fun rc => rc.2.toNumeric))

/-- Per-campaign return on spend (lines 281-283): the sales group sum divided
by the spend group sum, with infinities replaced by 0, NaN filled with 0, and
the result rounded. -/
def campaignRoas (t : Table) (spendCol : String) (k : Cell) : PVal :=
  round2 (fillNaN (replaceInf (pdDiv (campaignSum t "sales" k) (campaignSum t spendCol k))))

/-- The advertising metrics record restricted to the claim-relevant fields.
`campaign_roas` models the `roas` column of `campaign_performance`: `none`
when the campaign block is skipped or raises, or when no `sales` column
exists. -/
structure AdvMetrics where
  total_spend : Option ℚ
  total_clicks : Option ℚ
  total_impressions : Option ℚ
  avg_cpc : Option ℚ
  ctr : Option ℚ
  campaign_roas : Option (List (Cell × PVal))
  deriving DecidableEq, Repr

/-- Model of `DataAnalyzer._analyze_advertising`.  The campaign block runs
only when a literal `campaign_name` column exists; inside it the dictionary
handed to the `agg` call needs both a resolved spend column and a resolved
clicks column (otherwise the aggregation raises and the bare `except`
swallows the block, modelled as `none`); the `roas` column is added only when
a literal `sales` column also exists.  Returns the caller's table unchanged: the
function assigns no column of `advertising_df` (campaign aggregation builds a
fresh frame). -/
def analyzeAdvertising (cfg : Config) (t : Table) : AdvMetrics × Table × List Alert :=
  let spend_col := findSpendCol t.colNames
  let clicks_col := findClicksCol t.colNames
  let impressions_col := findImpressionsCol t.colNames
  let total_spend := spend_col.map (fun c => optSum ((t.getCol c).map Cell.toNumeric))
  let total_clicks := clicks_col.map (fun c => optSum ((t.getCol c).map Cell.toNumeric))
  let total_impressions :=
    impressions_col.map (fun c => optSum ((t.getCol c).map Cell.toNumeric))
  let tsp := total_spend.getD 0
  let tcl := total_clicks.getD 0
  let tim := total_impressions.getD 0
  let avg_cpc := if 0 < tsp && 0 < tcl then some (tsp / tcl) else none
  let ctr :=
    if 0 < tsp && 0 < tcl && 0 < tim then some (tcl / tim * 100) else none
  let campaign_roas : Option (List (Cell × PVal)) :=
    if t.hasCol "campaign_name" then
      match spend_col, clicks_col with
      | some sc, some _ =>
          if t.hasCol "sales" then
            some ((campaignKeys t).map (fun k => (k, campaignRoas t sc k)))
          else none
      | _, _ => none
    else none
  let alerts :=
    match campaign_roas with
    | some l =>
        let flagged := l.countP (fun kv => pvalLt kv.2 (100 / cfg.high_acos))
        if 0 < flagged then
          [⟨"advertising", "warning", "High ACOS Campaigns",
             toString flagged ++ " campaigns have ACOS above the threshold"⟩]
        else []
    | none => []
  (⟨total_spend, total_clicks, total_impressions, avg_cpc, ctr, campaign_roas⟩, t, alerts)

/-! ## Reviews analyzer (`DataAnalyzer._analyze_reviews`, lines 308-336) -/

/-- The reviews metrics record restricted to the claim-relevant fields. -/
structure RevMetrics where
  total_reviews : ℕ
  avg_rating : Option ℚ
  low_rated_count : Option ℕ
  deriving DecidableEq, Repr

/-- Model of `DataAnalyzer._analyze_reviews`: requires a literal `rating`
column; the low-rated count and its alert appear only when positive.  Returns
the caller's table unchanged: the function assigns no DataFrame column. -/
def analyzeReviews (cfg : Config) (t : Table) : RevMetrics × Table × List Alert :=
  if t.hasCol "rating" then
    let ratings := (t.getCol "rating").map Cell.toNumeric
    let avg := optMean ratings
    let lowCount := ratings.countP (fun v => optLt v cfg.low_rating)
    if 0 < lowCount then
      (⟨t.nrows, avg, some lowCount⟩, t,
        [⟨"reviews", "warning", "Low Ratings Alert",
           toString lowCount ++ " reviews have rating below " ++ ratStr cfg.low_rating⟩])
    else (⟨t.nrows, avg, none⟩, t, [])
  else (⟨t.nrows, none, none⟩, t, [])

/-! ## The analysis driver (`DataAnalyzer.analyze_all`, lines 19-44) -/

/-- The four analysis domains, in the order `analyze_all` visits them. -/
inductive DomKey where
  | sales
  | inventory
  | advertising
  | reviews
  deriving DecidableEq, Repr

/-- The per-domain metrics payload stored in `self.results`. -/
inductive DomainMetrics where
  | salesM (m : SalesMetrics)
  | invM (m : InvMetrics)
  | advM (m : AdvMetrics)
  | revM (m : RevMetrics)
  deriving DecidableEq, Repr

/-- The analyzer's accumulated state: `self.results` and `self.alerts`. -/
structure RunState where
  results : List (DomKey × DomainMetrics)
  alerts : List Alert
  deriving DecidableEq, Repr

/-- Model of the control flow of `DataAnalyzer.analyze_all`, parametrized by
the per-domain analysis step so that an unexpected internal failure
(`Except.error`) can be expressed: the four domains run sequentially inside a
single `try`, and the `except` clause only logs and re-raises, so the first
failure propagates out of the whole call and later domains never run. -/
def analyzeAllWith (step : DomKey → Table → RunState → Except Unit RunState)
    (dat : DomKey → Option Table) (st : RunState) : Except Unit RunState := do
  let st ← match dat .sales with
    | some t => step .sales t st
    | none => pure st
  let st ← match dat .inventory with
    | some t => step .inventory t st
    | none => pure st
  let st ← match dat .advertising with
    | some t => step .advertising t st
    | none => pure st
  match dat .reviews with
  | some t => step .reviews t st
  | none => pure st

/-- The (never-failing) per-domain step assembled from the four analyzer
models: appends the domain's metrics record and its alerts. -/
def realStep (cfg : Config) : DomKey → Table → RunState → Except Unit RunState
  | .sales, t, st =>
      let r := analyzeSales t
      .ok ⟨st.results ++ [(.sales, .salesM r.1)], st.alerts ++ r.2.2⟩
  | .inventory, t, st =>
      let r := analyzeInventory cfg t
      .ok ⟨st.results ++ [(.inventory, .invM r.1)], st.alerts ++ r.2.2⟩
  | .advertising, t, st =>
      let r := analyzeAdvertising cfg t
      .ok ⟨st.results ++ [(.advertising, .advM r.1)], st.alerts ++ r.2.2⟩
  | .reviews, t, st =>
      let r := analyzeReviews cfg t
      .ok ⟨st.results ++ [(.reviews, .revM r.1)], st.alerts ++ r.2.2⟩

/-! ## Theorems -/

/-- C9: file classification assigns every CSV filename to exactly one of the
five buckets, testing the lowercased filename against the four domain pattern
sets in the fixed priority order sales, inventory, advertising, reviews; the
first matching domain wins even when later domains' patterns also match
(witnessed by "stock_orders.csv", which matches both the sales pattern
"order" and the inventory pattern "stock" and lands in sales), and a file
matching no pattern goes to the other bucket.  Totality of `classifyFile`
gives the exactly-one-bucket part; the equivalences characterize each
bucket. -/
theorem file_classification_priority (f : String) :
    (classifyFile f = .sales ↔ anyPat salesFilePats (pyLower f) = true) ∧
    (classifyFile f = .inventory ↔
      anyPat salesFilePats (pyLower f) = false ∧
        anyPat inventoryFilePats (pyLower f) = true) ∧
    (classifyFile f = .advertising ↔
      anyPat salesFilePats (pyLower f) = false ∧
        anyPat inventoryFilePats (pyLower f) = false ∧
          anyPat advertisingFilePats (pyLower f) = true) ∧
    (classifyFile f = .reviews ↔
      anyPat salesFilePats (pyLower f) = false ∧
        anyPat inventoryFilePats (pyLower f) = false ∧
          anyPat advertisingFilePats (pyLower f) = false ∧
            anyPat reviewsFilePats (pyLower f) = true) ∧
    (classifyFile f = .other ↔
      anyPat salesFilePats (pyLower f) = false ∧
        anyPat inventoryFilePats (pyLower f) = false ∧
          anyPat advertisingFilePats (pyLower f) = false ∧
            anyPat reviewsFilePats (pyLower f) = false) ∧
    (classifyFile "stock_orders.csv" = .sales ∧
      anyPat inventoryFilePats (pyLower "stock_orders.csv") = true) := by
  refine ⟨?_, ?_, ?_, ?_, ?_, by decide⟩ <;>
    · unfold classifyFile
      cases h1 : anyPat salesFilePats (pyLower f) <;>
        cases h2 : anyPat inventoryFilePats (pyLower f) <;>
          cases h3 : anyPat advertisingFilePats (pyLower f) <;>
            cases h4 : anyPat reviewsFilePats (pyLower f) <;>
              simp [h1, h2, h3, h4]

/-- C6: revenue-column resolution returns the first name, in original order,
whose lowercased form contains one of the substrings "total", "revenue",
"amount", "price" and does not contain "unit"; in a list containing
`unit_price` before `total_amount` the latter is selected; and when no name
qualifies, the revenue-derived sales metrics default (total revenue 0,
average order value 0) instead of erroring. -/
theorem revenue_column_resolution (cols : List String) (t : Table) :
    (∀ c, findRevenueCol cols = some c →
        c ∈ cols ∧ revQualifies c = true ∧
          ∃ l1 l2, cols = l1 ++ c :: l2 ∧ ∀ x ∈ l1, revQualifies x = false) ∧
    (revQualifies "total_amount" = true ∧ revQualifies "unit_price" = false ∧
      findRevenueCol ["unit_price", "total_amount"] = some "total_amount") ∧
    (findRevenueCol t.colNames = none →
      (analyzeSales t).1.total_revenue = 0 ∧
        (analyzeSales t).1.avg_order_value = some 0) := by
  refine ⟨?_, by decide, ?_⟩
  · intro c h
    have hq : revQualifies c = true := List.find?_some h
    have hm : c ∈ cols := List.mem_of_find?_eq_some h
    rcases List.find?_eq_some.mp h with ⟨_, l1, l2, hsplit, hfirst⟩
    exact ⟨hm, hq, l1, l2, hsplit, fun x hx => by simpa using hfirst x hx⟩
  · intro h
    cases hd : findAnalyzerDateCol t.colNames <;>
      simp [analyzeSales, hd, h]

/-- C4: numeric coercion is a total function of the cell (it never raises),
and its sentinel for an unparseable cell is domain-asymmetric: in a cleaned
inventory table every cell of a column matching an inventory numeric pattern
goes through `invCoerceCell` and an unparseable cell becomes zero, while in a
cleaned sales table every cell of a (non-date) column matching a sales
numeric pattern goes through `salesCoerceCell` and an unparseable cell
becomes null. -/
theorem numeric_coercion_sentinels (t : Table) (name : String)
    (cells : List Cell) (c : Cell)
    (hmem : (name, cells) ∈ t.cols) (_hc : c ∈ cells)
    (hun : c.toNumeric = none) :
    (anyPat inventoryNumericPats (pyLower name) = true →
      (name, cells.map invCoerceCell) ∈ (cleanInventoryData t).cols ∧
        invCoerceCell c = Cell.num 0) ∧
    (anyPat salesNumericPats (pyLower name) = true →
      findDateColumn t.colNames ≠ some name →
      (name, cells.map salesCoerceCell) ∈ (cleanSalesData t).cols ∧
        salesCoerceCell c = Cell.null) := by
  constructor
  · intro hpat
    constructor
    · unfold cleanInventoryData
      have := List.mem_map_of_mem
        (f := fun c : String × List Cell =>
          if anyPat inventoryNumericPats (pyLower c.1) then (c.1, c.2.map invCoerceCell)
          else c) hmem
      simpa [hpat] using this
    · simp [invCoerceCell, hun]
  · intro hpat hnd
    have hbeq : (findDateColumn t.colNames == some name) = false := by
      simpa [beq_eq_false_iff_ne] using hnd
    constructor
    · have hmem1 : (name, cells) ∈ dateConvertCols (findDateColumn t.colNames) t.cols := by
        cases hfd : findDateColumn t.colNames with
        | none => simpa [dateConvertCols] using hmem
        | some dc =>
            have hne2 : (name == dc) = false := by
              rw [hfd] at hnd
              simp only [beq_eq_false_iff_ne, ne_eq]
              intro hcon
              exact hnd (by rw [hcon])
            have h1 := List.mem_map_of_mem
              (f := fun c : String × List Cell =>
                if c.1 == dc then (c.1, c.2.map dateCoerceCell) else c) hmem
            simp only [hne2, Bool.false_eq_true, if_false] at h1
            simpa [dateConvertCols] using h1
      have h2 := List.mem_map_of_mem
        (f := fun c : String × List Cell =>
          if anyPat salesNumericPats (pyLower c.1) &&
              !(findDateColumn t.colNames == some c.1) then
            (c.1, c.2.map salesCoerceCell)
          else c) hmem1
      simp only [hpat, hbeq, Bool.not_false, Bool.and_true, if_true] at h2
      simpa [cleanSalesData, salesCoerceCols] using h2
    · simp [salesCoerceCell, hun]

/-- Witness for the revenue-resolution theorem at the concrete list
containing `unit_price` before `total_amount`. -/
theorem revenue_column_resolution_witness :
    "total_amount" ∈ ["unit_price", "total_amount"] ∧
      revQualifies "total_amount" = true := by
  have h := (revenue_column_resolution ["unit_price", "total_amount"]
    ⟨[]⟩).1 "total_amount" (by decide)
  exact ⟨h.1, h.2.1⟩

/-- Witness for the coercion-sentinel theorem at a concrete table whose
`days_of_supply` column is inventory-numeric and whose `total_amount` column
is sales-numeric, each holding one unparseable cell. -/
theorem numeric_coercion_sentinels_witness :
    invCoerceCell (Cell.str "n/a") = Cell.num 0 ∧
      salesCoerceCell (Cell.str "n/a") = Cell.null := by
  have h1 := (numeric_coercion_sentinels
    ⟨[("days_of_supply", [Cell.str "n/a"]), ("total_amount", [Cell.str "n/a"])]⟩
    "days_of_supply" [Cell.str "n/a"] (Cell.str "n/a")
    (by decide) (by decide) (by decide)).1 (by decide)
  have h2 := (numeric_coercion_sentinels
    ⟨[("days_of_supply", [Cell.str "n/a"]), ("total_amount", [Cell.str "n/a"])]⟩
    "total_amount" [Cell.str "n/a"] (Cell.str "n/a")
    (by decide) (by decide) (by decide)).2 (by decide) (by decide)
  exact ⟨h1.2, h2.2⟩

/-- The division-replace-fill-round pipeline of the campaign return always
lands on a finite value, and lands on zero whenever the divisor is zero. -/
theorem roasPipelineFin (a b : ℚ) :
    (∃ q, round2 (fillNaN (replaceInf (pdDiv a b))) = PVal.fin q) ∧
      (b = 0 → round2 (fillNaN (replaceInf (pdDiv a b))) = PVal.fin 0) := by
  have h0 : round2 (PVal.fin 0) = PVal.fin 0 := by with_unfolding_all decide
  by_cases hb : b = 0
  · have hp : fillNaN (replaceInf (pdDiv a b)) = PVal.fin 0 := by
      by_cases ha : a = 0
      · simp [pdDiv, hb, ha, replaceInf, fillNaN]
      · rcases lt_or_gt_of_ne (a := a) (b := 0) ha with h | h
        · have hna : ¬(0 < a) := by linarith
          simp [pdDiv, hb, ha, hna, replaceInf, fillNaN]
        · simp [pdDiv, hb, ha, h, replaceInf, fillNaN]
    rw [hp, h0]
    exact ⟨⟨0, rfl⟩, fun _ => rfl⟩
  · refine ⟨⟨(qfloor (a / b * 100 + 1 / 2) : ℚ) / 100, ?_⟩, fun h => absurd h hb⟩
    simp [pdDiv, hb, replaceInf, fillNaN, round2]

/-- C7: for every advertising table whose campaign block produces per-campaign
return-on-spend values, every such value is a finite number (never an
infinity or NaN), and a campaign whose spend sum is zero gets return 0. -/
theorem campaign_roas_finite (cfg : Config) (t : Table) (sc : String)
    (l : List (Cell × PVal))
    (hsc : findSpendCol t.colNames = some sc)
    (h : (analyzeAdvertising cfg t).1.campaign_roas = some l) :
    ∀ kv ∈ l, (∃ q, kv.2 = PVal.fin q) ∧
      (campaignSum t sc kv.1 = 0 → kv.2 = PVal.fin 0) := by
  have hl : l = (campaignKeys t).map (fun k => (k, campaignRoas t sc k)) := by
    simp only [analyzeAdvertising, hsc] at h
    cases hcc : findClicksCol t.colNames with
    | none =>
        rw [hcc] at h
        by_cases hc1 : t.hasCol "campaign_name" <;> simp [hc1] at h
    | some cc =>
        rw [hcc] at h
        by_cases hc1 : t.hasCol "campaign_name" <;>
          by_cases hc2 : t.hasCol "sales" <;>
            simp [hc1, hc2] at h
        exact h.symm
  subst hl
  intro kv hkv
  rcases List.mem_map.mp hkv with ⟨k, _, rfl⟩
  have := roasPipelineFin (campaignSum t "sales" k) (campaignSum t sc k)
  exact ⟨this.1, fun hz => this.2 hz⟩

/-- Witness for the campaign-return theorem: a table with two campaigns, one
with zero total spend. -/
theorem campaign_roas_finite_witness :
    ((analyzeAdvertising defaultConfig
        ⟨[("campaign_name", [Cell.str "A", Cell.str "B"]),
          ("spend", [Cell.num 0, Cell.num 5]),
          ("clicks", [Cell.num 1, Cell.num 2]),
          ("sales", [Cell.num 7, Cell.num 10])]⟩).1.campaign_roas =
      some [(Cell.str "A", PVal.fin 0), (Cell.str "B", PVal.fin 2)]) ∧
    (∃ q, PVal.fin (0 : ℚ) = PVal.fin q) := by
  constructor
  · with_unfolding_all decide
  · have h := campaign_roas_finite defaultConfig
      ⟨[("campaign_name", [Cell.str "A", Cell.str "B"]),
        ("spend", [Cell.num 0, Cell.num 5]),
        ("clicks", [Cell.num 1, Cell.num 2]),
        ("sales", [Cell.num 7, Cell.num 10])]⟩
      "spend" [(Cell.str "A", PVal.fin 0), (Cell.str "B", PVal.fin 2)]
      (by decide) (by with_unfolding_all decide)
    exact (h (Cell.str "A", PVal.fin 0) (by decide)).1

/-! ## Normalization idempotence machinery -/

/-- Reading back the code point of a character built from a valid scalar. -/
theorem toNat_ofNat_valid (n : ℕ) (h : n.isValidChar) : (Char.ofNat n).toNat = n := by
  simp [Char.ofNat, h, Char.ofNatAux, Char.toNat]
  rfl

/-- Lowercasing a character twice equals lowercasing it once. -/
theorem lowerCh_idem (c : Char) : lowerCh (lowerCh c) = lowerCh c := by
  unfold lowerCh
  by_cases h : (65 ≤ c.toNat && c.toNat ≤ 90) = true
  · rw [if_pos h]
    have hv : (c.toNat + 32).isValidChar := Or.inl (by
      simp only [Bool.and_eq_true, decide_eq_true_eq] at h
      omega)
    have ht := toNat_ofNat_valid _ hv
    have hne : ¬((65 ≤ (Char.ofNat (c.toNat + 32)).toNat &&
        (Char.ofNat (c.toNat + 32)).toNat ≤ 90) = true) := by
      rw [ht]
      simp only [Bool.and_eq_true, decide_eq_true_eq, not_and]
      simp only [Bool.and_eq_true, decide_eq_true_eq] at h
      omega
    rw [if_neg hne]
  · rw [if_neg h, if_neg h]

/-- A word character is never whitespace. -/
theorem word_not_space (c : Char) (h : isWordCh c = true) : isSpaceCh c = false := by
  unfold isWordCh at h
  unfold isSpaceCh
  simp only [Bool.or_eq_true, Bool.and_eq_true, decide_eq_true_eq] at h
  simp only [Bool.or_eq_false_iff, decide_eq_false_iff_not]
  omega

/-- Every character of a collapsed list is the replacement character or an
original character not satisfying the collapsed class. -/
theorem mem_collapseRuns (p : Char → Bool) (r : Char) (l : List Char) :
    ∀ c ∈ collapseRuns p r l, c = r ∨ (c ∈ l ∧ p c = false) := by
  induction l using collapseRuns.induct p r with
  | case1 => simp [collapseRuns]
  | case2 c cs hp ih =>
      intro x hx
      rw [collapseRuns] at hx
      simp only [hp, if_true] at hx
      rcases List.mem_cons.mp hx with h | h
      · exact Or.inl h
      · rcases ih x h with h' | ⟨hm, hpf⟩
        · exact Or.inl h'
        · exact Or.inr ⟨List.mem_cons_of_mem _ ((List.dropWhile_sublist p).mem hm), hpf⟩
  | case3 c cs hp ih =>
      intro x hx
      rw [collapseRuns] at hx
      simp only [hp, if_false] at hx
      rcases List.mem_cons.mp hx with h | h
      · subst h
        exact Or.inr ⟨List.mem_cons_self _ _, by simpa using hp⟩
      · rcases ih x h with h' | ⟨hm, hpf⟩
        · exact Or.inl h'
        · exact Or.inr ⟨List.mem_cons_of_mem _ hm, hpf⟩

/-- The head surviving a `dropWhile` does not satisfy the dropped class. -/
theorem head_dropWhile_false (p : Char → Bool) :
    ∀ (l : List Char) (d : Char), (l.dropWhile p).head? = some d → p d = false := by
  intro l
  induction l with
  | nil => intro d h; simp [List.dropWhile] at h
  | cons a as ih =>
      intro d h
      by_cases hp : p a = true
      · rw [List.dropWhile_cons_of_pos hp] at h
        exact ih d h
      · rw [List.dropWhile_cons_of_neg hp] at h
        have : a = d := by simpa using h
        subst this
        simpa using hp

/-- Collapsing is the identity on a list containing no character of the
collapsed class. -/
theorem collapseRuns_eq_self_of_none (p : Char → Bool) (r : Char) :
    ∀ l, (∀ c ∈ l, p c = false) → collapseRuns p r l = l := by
  intro l
  induction l using collapseRuns.induct p r with
  | case1 => intro _; simp [collapseRuns]
  | case2 c cs hp ih =>
      intro h
      exact absurd (h c (List.mem_cons_self c cs)) (by simp [hp])
  | case3 c cs hp ih =>
      intro h
      rw [collapseRuns, if_neg hp, ih (fun x hx => h x (List.mem_cons_of_mem c hx))]

/-- Collapsing is the identity when every class character is already the
replacement and no two class characters are adjacent. -/
theorem collapseRuns_eq_self (p : Char → Bool) (r : Char) :
    ∀ l, (∀ c ∈ l, p c = true → c = r) →
      List.Chain' (fun a b => ¬(p a = true ∧ p b = true)) l →
      collapseRuns p r l = l := by
  intro l
  induction l using collapseRuns.induct p r with
  | case1 => intro _ _; simp [collapseRuns]
  | case2 c cs hp ih =>
      intro hr hch
      have hc : c = r := hr c (List.mem_cons_self c cs) hp
      have hch' := (List.chain'_cons'.mp hch).2
      have hhd := (List.chain'_cons'.mp hch).1
      have hdrop : cs.dropWhile p = cs := by
        cases cs with
        | nil => rfl
        | cons b bs =>
            have hpb : p b = false := by
              have hrb := hhd b rfl
              by_cases hb : p b = true
              · exact absurd ⟨hp, hb⟩ hrb
              · simpa using hb
            rw [List.dropWhile_cons_of_neg (by simp [hpb])]
      rw [hdrop] at ih
      rw [collapseRuns, if_pos hp, hdrop,
        ih (fun x hx hpx => hr x (List.mem_cons_of_mem c hx) hpx) hch', hc]
  | case3 c cs hp ih =>
      intro hr hch
      rw [collapseRuns, if_neg hp,
        ih (fun x hx hpx => hr x (List.mem_cons_of_mem c hx) hpx)
          (List.Chain'.tail hch)]

/-- A collapsed list never has two adjacent characters of the collapsed
class. -/
theorem chain'_collapseRuns (p : Char → Bool) (r : Char) :
    ∀ l, List.Chain' (fun a b => ¬(p a = true ∧ p b = true)) (collapseRuns p r l) := by
  intro l
  induction l using collapseRuns.induct p r with
  | case1 => simp [collapseRuns]
  | case2 c cs hp ih =>
      rw [collapseRuns, if_pos hp, List.chain'_cons']
      refine ⟨?_, ih⟩
      intro h hh
      rintro ⟨hpr, hph⟩
      have hfalse : p h = false := by
        cases hm : cs.dropWhile p with
        | nil => rw [hm] at hh; simp [collapseRuns] at hh
        | cons d ds =>
            have hpd : p d = false := head_dropWhile_false p cs d (by rw [hm]; rfl)
            rw [hm, collapseRuns, if_neg (by simp [hpd])] at hh
            have : d = h := by simpa using hh
            subst this
            exact hpd
      simp [hfalse] at hph
  | case3 c cs hp ih =>
      rw [collapseRuns, if_neg hp, List.chain'_cons']
      refine ⟨?_, ih⟩
      intro h _
      rintro ⟨hpc, _⟩
      exact hp hpc

/-- Characters of a stripped list come from the original. -/
theorem mem_stripL (l : List Char) (c : Char) (h : c ∈ stripL l) : c ∈ l := by
  unfold stripL at h
  have h1 := List.mem_reverse.mp h
  have h2 := (List.dropWhile_sublist isSpaceCh).mem h1
  have h3 := List.mem_reverse.mp h2
  exact (List.dropWhile_sublist isSpaceCh).mem h3

/-- Dropping a class from a list with no character of that class is the
identity. -/
theorem dropWhile_eq_self_of_none (p : Char → Bool) (l : List Char)
    (h : ∀ c ∈ l, p c = false) : l.dropWhile p = l := by
  cases l with
  | nil => rfl
  | cons a as =>
      exact List.dropWhile_cons_of_neg (by simp [h a (List.mem_cons_self a as)])

/-- Stripping is the identity on a list with no whitespace. -/
theorem stripL_eq_self (l : List Char) (h : ∀ c ∈ l, isSpaceCh c = false) :
    stripL l = l := by
  unfold stripL
  rw [dropWhile_eq_self_of_none _ _ h,
    dropWhile_eq_self_of_none _ _ (fun c hc => h c (List.mem_reverse.mp hc)),
    List.reverse_reverse]

/-- Characters of the special-character replacement are underscores or
original word/whitespace characters. -/
theorem mem_replaceSpecial (l : List Char) (c : Char) (h : c ∈ replaceSpecial l) :
    c = '_' ∨ (c ∈ l ∧ (isWordCh c || isSpaceCh c) = true) := by
  unfold replaceSpecial at h
  rcases List.mem_map.mp h with ⟨a, ha, hfa⟩
  by_cases hcond : (!isWordCh a && !isSpaceCh a) = true
  · rw [if_pos hcond] at hfa
    exact Or.inl hfa.symm
  · rw [if_neg hcond] at hfa
    subst hfa
    refine Or.inr ⟨ha, ?_⟩
    simp only [Bool.and_eq_true, Bool.not_eq_true'] at hcond
    by_cases hw : isWordCh a = true
    · simp [hw]
    · have hs : isSpaceCh a = true := by
        by_contra hs'
        exact hcond ⟨by simpa using hw, by simpa using hs'⟩
      simp [hs]

/-- Replacing special characters is the identity on a list of word
characters. -/
theorem replaceSpecial_eq_self (l : List Char) (h : ∀ c ∈ l, isWordCh c = true) :
    replaceSpecial l = l := by
  unfold replaceSpecial
  refine (List.map_eq_map_iff.mpr ?_).trans (List.map_id _)
  intro a ha
  simp [h a ha]

/-- Lowercasing is the identity on a list of case-stable characters. -/
theorem map_lowerCh_eq_self (l : List Char) (h : ∀ c ∈ l, lowerCh c = c) :
    l.map lowerCh = l := by
  refine (List.map_eq_map_iff.mpr ?_).trans (List.map_id _)
  intro a ha
  exact h a ha

/-- Every character of a normalized name is a case-stable word character. -/
theorem standardizeL_inv (l : List Char) :
    ∀ c ∈ standardizeL l, isWordCh c = true ∧ lowerCh c = c ∧ isSpaceCh c = false := by
  intro c hc
  have hund : isWordCh '_' = true ∧ lowerCh '_' = '_' ∧ isSpaceCh '_' = false := by decide
  unfold standardizeL at hc
  rcases mem_collapseRuns _ _ _ c hc with h | ⟨hc2, _⟩
  · subst h; exact hund
  · rcases mem_collapseRuns _ _ _ c hc2 with h | ⟨hc3, hns⟩
    · subst h; exact hund
    · rcases mem_replaceSpecial _ c hc3 with h | ⟨hc4, hws⟩
      · subst h; exact hund
      · have hw : isWordCh c = true := by
          have hws' : isWordCh c = true ∨ isSpaceCh c = true := by simpa using hws
          rcases hws' with hw | hs
          · exact hw
          · rw [hns] at hs; cases hs
        have hst : lowerCh c = c := by
          have hc5 := mem_stripL _ _ hc4
          rcases List.mem_map.mp hc5 with ⟨a, _, rfl⟩
          exact lowerCh_idem a
        exact ⟨hw, hst, word_not_space c hw⟩

/-- Idempotence of the list-level normalization. -/
theorem standardizeL_idem (l : List Char) :
    standardizeL (standardizeL l) = standardizeL l := by
  have hinv := standardizeL_inv l
  have h1 : (standardizeL l).map lowerCh = standardizeL l :=
    map_lowerCh_eq_self _ (fun c hc => (hinv c hc).2.1)
  have hns : ∀ c ∈ standardizeL l, isSpaceCh c = false := fun c hc => (hinv c hc).2.2
  have h2 : stripL (standardizeL l) = standardizeL l := stripL_eq_self _ hns
  have h3 : replaceSpecial (standardizeL l) = standardizeL l :=
    replaceSpecial_eq_self _ (fun c hc => (hinv c hc).1)
  have h4 : collapseRuns isSpaceCh '_' (standardizeL l) = standardizeL l :=
    collapseRuns_eq_self_of_none _ _ _ hns
  have hch : List.Chain'
      (fun a b => ¬((a == '_') = true ∧ (b == '_') = true)) (standardizeL l) :=
    chain'_collapseRuns (fun c => c == '_') '_'
      (collapseRuns isSpaceCh '_' (replaceSpecial (stripL (l.map lowerCh))))
  have h5 : collapseRuns (fun c => c == '_') '_' (standardizeL l) = standardizeL l :=
    collapseRuns_eq_self _ _ _ (fun c _ hpc => by simpa using hpc) hch
  show collapseRuns (fun c => c == '_') '_'
      (collapseRuns isSpaceCh '_'
        (replaceSpecial (stripL ((standardizeL l).map lowerCh)))) =
    standardizeL l
  rw [h1, h2, h3, h4, h5]

/-- C5: column-name normalization is idempotent — normalizing an
already-normalized name returns it unchanged, for every string. -/
theorem standardize_idempotent (s : String) :
    standardizeColumnName (standardizeColumnName s) = standardizeColumnName s := by
  show (⟨standardizeL (standardizeL s.data)⟩ : String) = ⟨standardizeL s.data⟩
  exact congrArg String.mk (standardizeL_idem s.data)

/-! ## Inventory analyzer theorems -/

/-- The pandas elementwise comparison is monotone in its threshold. -/
theorem optLt_mono (v : Option ℚ) (a b : ℚ) (hab : a ≤ b) (h : optLt v a = true) :
    optLt v b = true := by
  cases v with
  | none => simp [optLt] at h
  | some x =>
      simp only [optLt, decide_eq_true_eq] at h ⊢
      linarith

/-- Characterization of the three inventory alerts at the shipped thresholds,
given resolved stock and days columns: the critical alert is emitted exactly
when some row has fewer than 3 days of supply, the low-stock alert exactly
when some row has fewer than 7, the overstock alert exactly when some row has
more than 30. -/
theorem inv_alert_titles (t : Table) (sc dc : String)
    (hs : findStockCol t.colNames = some sc)
    (hd : findDaysCol t.colNames = some dc) :
    ((∃ a ∈ (analyzeInventory defaultConfig t).2.2, a.title = "Critical Stock Shortage") ↔
        ∃ c ∈ t.getCol dc, optLt c.toNumeric 3 = true) ∧
    ((∃ a ∈ (analyzeInventory defaultConfig t).2.2, a.title = "Low Stock Alert") ↔
        ∃ c ∈ t.getCol dc, optLt c.toNumeric 7 = true) ∧
    ((∃ a ∈ (analyzeInventory defaultConfig t).2.2, a.title = "Overstock Detected") ↔
        ∃ c ∈ t.getCol dc, optGt c.toNumeric 30 = true) := by
  simp only [analyzeInventory, hs, hd, defaultConfig]
  by_cases h7 : ∃ c ∈ t.getCol dc, optLt c.toNumeric 7 = true
  · by_cases h3 : ∃ c ∈ t.getCol dc, optLt c.toNumeric 3 = true <;>
      by_cases h30 : ∃ c ∈ t.getCol dc, optGt c.toNumeric 30 = true <;>
        simp +decide [h7, h3, h30]
  · have h3 : ¬∃ c ∈ t.getCol dc, optLt c.toNumeric 3 = true := by
      rintro ⟨c, hc, hlt⟩
      exact h7 ⟨c, hc, optLt_mono _ 3 7 (by norm_num) hlt⟩
    by_cases h30 : ∃ c ∈ t.getCol dc, optGt c.toNumeric 30 = true <;>
      simp +decide [h7, h3, h30]

/-- C2 (amended): for every inventory table in which BOTH a stock-level
column and a days-of-supply column resolve, the analyzer partitions rows into
low-stock (days < 7) and overstock (days > 30) counts and emits the critical
"Critical Stock Shortage" alert exactly when some row has days < 3, the
warning "Low Stock Alert" exactly when some low-stock row exists (the two
alerts coexist), and the info "Overstock Detected" alert exactly when some
overstock row exists; a one-row table with `current_stock` and
`days_of_supply = 2` yields exactly the critical and low-stock alerts. -/
theorem inventory_alert_rules (t : Table) (sc dc : String)
    (hs : findStockCol t.colNames = some sc)
    (hd : findDaysCol t.colNames = some dc) :
    ((∃ a ∈ (analyzeInventory defaultConfig t).2.2, a.title = "Critical Stock Shortage") ↔
        ∃ c ∈ t.getCol dc, optLt c.toNumeric 3 = true) ∧
    ((∃ a ∈ (analyzeInventory defaultConfig t).2.2, a.title = "Low Stock Alert") ↔
        ∃ c ∈ t.getCol dc, optLt c.toNumeric 7 = true) ∧
    ((∃ a ∈ (analyzeInventory defaultConfig t).2.2, a.title = "Overstock Detected") ↔
        ∃ c ∈ t.getCol dc, optGt c.toNumeric 30 = true) ∧
    (analyzeInventory defaultConfig t).1.low_stock_count =
      some (((t.getCol dc).map Cell.toNumeric).countP (fun v => optLt v 7)) ∧
    (analyzeInventory defaultConfig t).1.overstock_count =
      some (((t.getCol dc).map Cell.toNumeric).countP (fun v => optGt v 30)) ∧
    ((analyzeInventory defaultConfig
        ⟨[("current_stock", [Cell.num 10]), ("days_of_supply", [Cell.num 2])]⟩).2.2).map
      Alert.title = ["Critical Stock Shortage", "Low Stock Alert"] := by
  refine ⟨(inv_alert_titles t sc dc hs hd).1, (inv_alert_titles t sc dc hs hd).2.1,
    (inv_alert_titles t sc dc hs hd).2.2, ?_, ?_, by with_unfolding_all decide⟩ <;>
    simp [analyzeInventory, hs, hd, defaultConfig, List.countP_map]

/-- Counterexample to C2 as stated: a table whose days-of-supply column
resolves and has a row with 2 days of supply, but with no resolved
stock-level column — the analyzer emits no alert at all, because the whole
alert block is nested under the stock-column check. -/
theorem inventory_alerts_counterexample :
    findDaysCol (Table.colNames ⟨[("days_of_supply", [Cell.num 2])]⟩) =
      some "days_of_supply" ∧
    optLt ((Cell.num 2).toNumeric) 3 = true ∧
    findStockCol (Table.colNames ⟨[("days_of_supply", [Cell.num 2])]⟩) = none ∧
    (analyzeInventory defaultConfig ⟨[("days_of_supply", [Cell.num 2])]⟩).2.2 = [] := by
  with_unfolding_all decide

/-- Witness for the inventory alert rules at a concrete table with a stock
column and one row of 2 days of supply. -/
theorem inventory_alert_rules_witness :
    ∃ a ∈ (analyzeInventory defaultConfig
        ⟨[("current_stock", [Cell.num 10]), ("days_of_supply", [Cell.num 2])]⟩).2.2,
      a.title = "Critical Stock Shortage" := by
  exact (inventory_alert_rules
    ⟨[("current_stock", [Cell.num 10]), ("days_of_supply", [Cell.num 2])]⟩
    "current_stock" "days_of_supply" (by decide) (by decide)).1.mpr
    (by with_unfolding_all decide)

/-- Updating a cell does not change the column names. -/
theorem setCell_colNames (t : Table) (n : String) (i : ℕ) (v : Cell) :
    (t.setCell n i v).colNames = t.colNames := by
  unfold Table.setCell Table.colNames
  rw [List.map_map]
  refine List.map_eq_map_iff.mpr ?_
  intro a _
  by_cases h : a.1 = n <;> simp [h]

/-- Updating a cell of column `n` updates exactly that column's cells. -/
theorem setCell_getCol (t : Table) (n : String) (i : ℕ) (v : Cell) :
    (t.setCell n i v).getCol n = (t.getCol n).set i v := by
  unfold Table.setCell Table.getCol
  rw [List.find?_map]
  have hpe : ((fun c : String × List Cell => c.1 == n) ∘
      (fun c : String × List Cell => if c.1 == n then (c.1, c.2.set i v) else c)) =
      (fun c : String × List Cell => c.1 == n) := by
    funext c
    by_cases h : c.1 = n <;> simp [h]
  rw [hpe]
  cases hf : t.cols.find? (fun c => c.1 == n) with
  | none => simp
  | some c =>
      have hc := List.find?_some hf
      simp only [beq_iff_eq] at hc
      simp [hc]

/-- C8: lowering any single days-of-supply cell below 3, holding everything
else fixed, can only add or preserve the "Critical Stock Shortage" alert,
never remove it: if the alert was present before the update it is present
after it. -/
theorem critical_alert_monotone (t : Table) (dc : String) (i : ℕ) (v : ℚ)
    (hd : findDaysCol t.colNames = some dc) (hv : v < 3)
    (hbefore : ∃ a ∈ (analyzeInventory defaultConfig t).2.2,
      a.title = "Critical Stock Shortage") :
    ∃ a ∈ (analyzeInventory defaultConfig (t.setCell dc i (Cell.num v))).2.2,
      a.title = "Critical Stock Shortage" := by
  cases hsc : findStockCol t.colNames with
  | none =>
      simp only [analyzeInventory, hsc] at hbefore
      simp at hbefore
  | some sc =>
      have hcrit := (inv_alert_titles t sc dc hsc hd).1.mp hbefore
      have hs2 : findStockCol (t.setCell dc i (Cell.num v)).colNames = some sc := by
        rw [setCell_colNames]; exact hsc
      have hd2 : findDaysCol (t.setCell dc i (Cell.num v)).colNames = some dc := by
        rw [setCell_colNames]; exact hd
      refine ((inv_alert_titles (t.setCell dc i (Cell.num v)) sc dc hs2 hd2).1).mpr ?_
      rw [setCell_getCol]
      by_cases hi : i < (t.getCol dc).length
      · refine ⟨Cell.num v, ?_, by simpa [Cell.toNumeric, optLt] using hv⟩
        have hlen : i < ((t.getCol dc).set i (Cell.num v)).length := by simpa using hi
        have hm := List.getElem_mem hlen
        rwa [List.getElem_set_self hlen] at hm
      · rw [List.set_eq_of_length_le (by omega)]
        exact hcrit

/-- Witness for the monotonicity theorem: a two-row table whose second days
value is lowered from 5 to 2; the critical alert was present before (first
row has 2 days) and remains present. -/
theorem critical_alert_monotone_witness :
    ∃ a ∈ (analyzeInventory defaultConfig
        ((⟨[("current_stock", [Cell.num 10, Cell.num 10]),
            ("days_of_supply", [Cell.num 2, Cell.num 5])]⟩ : Table).setCell
          "days_of_supply" 1 (Cell.num 2))).2.2,
      a.title = "Critical Stock Shortage" := by
  exact critical_alert_monotone
    ⟨[("current_stock", [Cell.num 10, Cell.num 10]),
      ("days_of_supply", [Cell.num 2, Cell.num 5])]⟩
    "days_of_supply" 1 2 (by decide) (by norm_num)
    (by with_unfolding_all decide)

/-! ## Sales growth theorems -/

/-- With resolved date and revenue columns, the growth metric of the sales
analyzer is the growth of the monthly totals table. -/
theorem analyzeSales_growth (t : Table) (dc rc : String)
    (hd : findAnalyzerDateCol t.colNames = some dc)
    (hr : findRevenueCol t.colNames = some rc) :
    (analyzeSales t).1.monthly_growth =
      growthOf (monthlyTotals (t.getCol dc) (t.getCol rc)) := by
  simp only [analyzeSales, hd, hr]

/-- The growth key is present exactly when at least two month groups exist
and the previous month's total is strictly positive. -/
theorem growthOf_isSome_iff (m : List ((ℕ × ℕ) × ℚ)) :
    (growthOf m).isSome = true ↔ 2 ≤ m.length ∧ 0 < prevTotal m := by
  unfold growthOf prevTotal
  by_cases hlen : 1 < m.length
  · have h1 : m.length - 1 < m.length := by omega
    have h2 : m.length - 2 < m.length := by omega
    rw [if_pos hlen]
    simp only [List.getElem?_eq_getElem h1, List.getElem?_eq_getElem h2,
      Option.map_some', Option.getD_some]
    by_cases hp : 0 < (m.get ⟨m.length - 2, h2⟩).2
    · simp only [List.get_eq_getElem] at hp
      simp [hp]
      omega
    · simp only [List.get_eq_getElem] at hp
      simp [hp]
  · rw [if_neg hlen]
    simp only [Option.isSome_none, Bool.false_eq_true, false_iff, not_and]
    intro hcon
    omega

/-- When present, the growth value is the month-over-month formula evaluated
at the last and previous totals. -/
theorem growthOf_eq_some (m : List ((ℕ × ℕ) × ℚ)) (g : ℚ)
    (h : growthOf m = some g) :
    g = (lastTotal m - prevTotal m) / prevTotal m * 100 := by
  unfold growthOf at h
  by_cases hlen : 1 < m.length
  · rw [if_pos hlen] at h
    have h1 : m.length - 1 < m.length := by omega
    have h2 : m.length - 2 < m.length := by omega
    simp only [List.getElem?_eq_getElem h1, List.getElem?_eq_getElem h2] at h
    by_cases hp : 0 < (m.get ⟨m.length - 2, h2⟩).2
    · simp only [List.get_eq_getElem] at hp
      rw [if_pos hp] at h
      have hg := (Option.some.inj h).symm
      unfold lastTotal prevTotal
      simp only [List.getElem?_eq_getElem h1, List.getElem?_eq_getElem h2,
        Option.map_some', Option.getD_some]
      exact hg
    · simp only [List.get_eq_getElem] at hp
      rw [if_neg hp] at h
      cases h
  · rw [if_neg hlen] at h
    cases h

/-- C3 (amended): for every sales table with resolved date and revenue
columns, the `monthly_growth` key is present if and only if the monthly
grouping yields at least two months and the previous month's total is
strictly positive (the code tests `prev_month > 0`, not merely nonzero); when
present it equals `(last - previous) / previous * 100`, an exact rational —
never NaN or an infinity. -/
theorem monthly_growth_condition (t : Table) (dc rc : String)
    (hd : findAnalyzerDateCol t.colNames = some dc)
    (hr : findRevenueCol t.colNames = some rc) :
    ((analyzeSales t).1.monthly_growth.isSome = true ↔
      2 ≤ (monthlyTotals (t.getCol dc) (t.getCol rc)).length ∧
        0 < prevTotal (monthlyTotals (t.getCol dc) (t.getCol rc))) ∧
    (∀ g, (analyzeSales t).1.monthly_growth = some g →
      g = (lastTotal (monthlyTotals (t.getCol dc) (t.getCol rc)) -
            prevTotal (monthlyTotals (t.getCol dc) (t.getCol rc))) /
          prevTotal (monthlyTotals (t.getCol dc) (t.getCol rc)) * 100) := by
  rw [analyzeSales_growth t dc rc hd hr]
  exact ⟨growthOf_isSome_iff _, fun g hg => growthOf_eq_some _ g hg⟩

/-- Counterexample to C3 as stated: a two-month sales table whose first
month's total is -50 — nonzero, so the claim says the growth key must be
present (with value -300) — yet the code omits the key because it requires
the previous total to be strictly positive. -/
theorem monthly_growth_counterexample :
    findAnalyzerDateCol (Table.colNames
      ⟨[("order_date", [Cell.date 2023 1 5, Cell.date 2023 2 5]),
        ("revenue", [Cell.num (-50), Cell.num 100])]⟩) = some "order_date" ∧
    findRevenueCol (Table.colNames
      ⟨[("order_date", [Cell.date 2023 1 5, Cell.date 2023 2 5]),
        ("revenue", [Cell.num (-50), Cell.num 100])]⟩) = some "revenue" ∧
    monthlyTotals
      ((⟨[("order_date", [Cell.date 2023 1 5, Cell.date 2023 2 5]),
          ("revenue", [Cell.num (-50), Cell.num 100])]⟩ : Table).getCol "order_date")
      ((⟨[("order_date", [Cell.date 2023 1 5, Cell.date 2023 2 5]),
          ("revenue", [Cell.num (-50), Cell.num 100])]⟩ : Table).getCol "revenue") =
      [((2023, 1), -50), ((2023, 2), 100)] ∧
    (analyzeSales
      ⟨[("order_date", [Cell.date 2023 1 5, Cell.date 2023 2 5]),
        ("revenue", [Cell.num (-50), Cell.num 100])]⟩).1.monthly_growth = none := by
  with_unfolding_all decide

/-- Witness for the growth-condition theorem at the spec scenario table
(January total 150, February total 260, growth 220/3 percent). -/
theorem monthly_growth_condition_witness :
    (SalesMetrics.monthly_growth (analyzeSales
      ⟨[("order_date", [Cell.date 2023 1 5, Cell.date 2023 1 20,
          Cell.date 2023 2 1, Cell.date 2023 2 15]),
        ("revenue", [Cell.num 100, Cell.num 50, Cell.num 200, Cell.num 60])]⟩).1).isSome = true := by
  exact (monthly_growth_condition
    ⟨[("order_date", [Cell.date 2023 1 5, Cell.date 2023 1 20,
        Cell.date 2023 2 1, Cell.date 2023 2 15]),
      ("revenue", [Cell.num 100, Cell.num 50, Cell.num 200, Cell.num 60])]⟩
    "order_date" "revenue" (by decide) (by decide)).1.mpr
    (by with_unfolding_all decide)

/-! ## Table mutation theorems -/

/-- A column name is present exactly when it occurs among the column names. -/
theorem hasCol_iff_mem (t : Table) (n : String) :
    t.hasCol n = true ↔ n ∈ t.colNames := by
  unfold Table.hasCol Table.colNames
  simp only [List.any_eq_true, beq_iff_eq, List.mem_map]

/-- Column assignment overwrites in place or appends at the end: the column
names afterwards are the old ones, extended by the new name when absent. -/
theorem setCol_colNames (t : Table) (n : String) (cells : List Cell) :
    (t.setCol n cells).colNames =
      if t.hasCol n then t.colNames else t.colNames ++ [n] := by
  unfold Table.setCol
  by_cases h : t.hasCol n = true
  · rw [if_pos h, if_pos h]
    unfold Table.colNames
    rw [List.map_map]
    refine List.map_eq_map_iff.mpr ?_
    intro a _
    by_cases ha : a.1 = n <;> simp [ha]
  · rw [if_neg h, if_neg (by simpa using h)]
    unfold Table.colNames
    simp

/-- C10 (amended): whenever a date column is found, the sales analyzer writes
the helper columns `_date` and `_month_str` into the caller's table in place
— appending them when absent, overwriting them when already present — so the
column list afterwards is exactly the original extended by the two helper
names whenever those names were not already columns; the other three domain
analyzers hand the caller's table back with its column list unchanged. -/
theorem sales_table_mutation (t : Table) (dc : String)
    (hd : findAnalyzerDateCol t.colNames = some dc) :
    (analyzeSales t).2.1.hasCol "_date" = true ∧
    (analyzeSales t).2.1.hasCol "_month_str" = true ∧
    (t.hasCol "_date" = false → t.hasCol "_month_str" = false →
      (analyzeSales t).2.1.colNames = t.colNames ++ ["_date", "_month_str"]) ∧
    (∀ cfg t2, (analyzeInventory cfg t2).2.1 = t2 ∧
      (analyzeAdvertising cfg t2).2.1 = t2 ∧ (analyzeReviews cfg t2).2.1 = t2) := by
  have htable : (analyzeSales t).2.1 =
      (t.setCol "_date" ((t.getCol dc).map dateCoerceCell)).setCol "_month_str"
        ((t.getCol dc).map (fun c =>
          match c.toMonth with
          | some (y, m) => Cell.str (monthLabel y m)
          | none => Cell.null)) := by
    simp only [analyzeSales, hd]
  refine ⟨?_, ?_, ?_, ?_⟩
  · rw [htable, hasCol_iff_mem, setCol_colNames]
    by_cases h2 : (t.setCol "_date" ((t.getCol dc).map dateCoerceCell)).hasCol "_month_str"
    · rw [if_pos h2]
      rw [setCol_colNames]
      by_cases h1 : t.hasCol "_date"
      · rw [if_pos h1]
        have := (hasCol_iff_mem t "_date").mp (by simpa using h1)
        exact this
      · rw [if_neg h1]
        simp
    · rw [if_neg h2]
      rw [setCol_colNames]
      by_cases h1 : t.hasCol "_date"
      · rw [if_pos h1]
        have := (hasCol_iff_mem t "_date").mp (by simpa using h1)
        simp [this]
      · rw [if_neg h1]
        simp
  · rw [htable, hasCol_iff_mem, setCol_colNames]
    by_cases h2 : (t.setCol "_date" ((t.getCol dc).map dateCoerceCell)).hasCol "_month_str"
    · rw [if_pos h2]
      exact (hasCol_iff_mem _ "_month_str").mp (by simpa using h2)
    · rw [if_neg h2]
      simp
  · intro hnd hnm
    have hm2 : (t.setCol "_date" ((t.getCol dc).map dateCoerceCell)).hasCol
        "_month_str" = false := by
      rw [Bool.eq_false_iff]
      intro hcon
      rw [hasCol_iff_mem, setCol_colNames, if_neg (by simp [hnd])] at hcon
      rcases List.mem_append.mp hcon with h | h
      · exact absurd ((hasCol_iff_mem t "_month_str").mpr h) (by simp [hnm])
      · simp at h
    rw [htable, setCol_colNames, if_neg (by simp [hm2]), setCol_colNames,
      if_neg (by simp [hnd]), List.append_assoc]
    rfl
  · intro cfg t2
    refine ⟨?_, ?_, ?_⟩
    · unfold analyzeInventory
      cases findStockCol t2.colNames <;> cases findDaysCol t2.colNames <;> rfl
    · rfl
    · unfold analyzeReviews
      by_cases h : t2.hasCol "rating" = true
      · simp only [h, if_true]
        by_cases h2 : ∃ a ∈ t2.getCol "rating", optLt a.toNumeric cfg.low_rating = true <;>
          simp [h2]
      · simp [h]

/-- Counterexample to C10 as stated: a table that already contains columns
named `_date` and `_month_str`; a date column is found (`_date` itself), the
helper assignments overwrite in place, and the column count does not grow. -/
theorem sales_mutation_counterexample :
    findAnalyzerDateCol (Table.colNames
      ⟨[("_date", [Cell.null]), ("_month_str", [Cell.null])]⟩) = some "_date" ∧
    ((analyzeSales ⟨[("_date", [Cell.null]),
        ("_month_str", [Cell.null])]⟩).2.1).cols.length = 2 ∧
    ((⟨[("_date", [Cell.null]), ("_month_str", [Cell.null])]⟩ : Table)).cols.length = 2 := by
  with_unfolding_all decide

/-- Witness for the mutation theorem at a one-column sales table: the helper
columns get appended. -/
theorem sales_table_mutation_witness :
    (analyzeSales ⟨[("order_date", [Cell.date 2023 1 5])]⟩).2.1.colNames =
      ["order_date", "_date", "_month_str"] := by
  have h := (sales_table_mutation ⟨[("order_date", [Cell.date 2023 1 5])]⟩
    "order_date" (by decide)).2.2.1 (by decide) (by decide)
  simpa using h

/-! ## Analysis driver theorems -/

/-- C1 (amended): an unexpected internal failure during the sales analysis
propagates out of `analyze_all` — the `except` clause only logs and
re-raises — so the whole analysis call aborts with that error; the later
domains are not analyzed and the call produces no state at all, regardless of
which other tables were loaded. -/
theorem analysis_failure_aborts
    (step : DomKey → Table → RunState → Except Unit RunState)
    (dat : DomKey → Option Table) (st : RunState) (t : Table) (e : Unit)
    (hs : dat .sales = some t) (hf : step .sales t st = .error e) :
    analyzeAllWith step dat st = .error e := by
  unfold analyzeAllWith
  simp only [hs, hf]
  rfl

/-- Counterexample to C1 as stated: with both a sales table and an inventory
table loaded and a step that fails on sales (modelling an unexpected internal
failure there) while behaving as the real analyzers elsewhere, the whole run
returns an error and produces no metrics for any domain; the same
configuration without the sales table succeeds and produces the inventory
metrics and alerts — so the failing domain was not isolated. -/
theorem analysis_isolation_counterexample :
    analyzeAllWith
      (fun d t st =>
        match d with
        | .sales => Except.error ()
        | _ => realStep defaultConfig d t st)
      (fun d =>
        match d with
        | .sales => some ⟨[("revenue", [Cell.num 5])]⟩
        | .inventory =>
            some ⟨[("current_stock", [Cell.num 10]), ("days_of_supply", [Cell.num 2])]⟩
        | _ => none)
      ⟨[], []⟩ = Except.error () ∧
    analyzeAllWith
      (fun d t st =>
        match d with
        | .sales => Except.error ()
        | _ => realStep defaultConfig d t st)
      (fun d =>
        match d with
        | .inventory =>
            some ⟨[("current_stock", [Cell.num 10]), ("days_of_supply", [Cell.num 2])]⟩
        | _ => none)
      ⟨[], []⟩ =
      Except.ok
        ⟨[(DomKey.inventory, DomainMetrics.invM
            (analyzeInventory defaultConfig
              ⟨[("current_stock", [Cell.num 10]), ("days_of_supply", [Cell.num 2])]⟩).1)],
          (analyzeInventory defaultConfig
            ⟨[("current_stock", [Cell.num 10]), ("days_of_supply", [Cell.num 2])]⟩).2.2⟩ := by
  constructor
  · rfl
  · rfl

/-- Witness for the abort theorem at a concrete failing step. -/
theorem analysis_failure_aborts_witness :
    analyzeAllWith
      (fun d _ st =>
        match d with
        | DomKey.sales => Except.error ()
        | _ => Except.ok st)
      (fun _ => some ⟨[]⟩) ⟨[], []⟩ = Except.error () := by
  exact analysis_failure_aborts
    (fun d _ st =>
      match d with
      | DomKey.sales => Except.error ()
      | _ => Except.ok st)
    (fun _ => some ⟨[]⟩) ⟨[], []⟩ ⟨[]⟩ () rfl rfl

end AAS
